import Mathlib

/-!
Shallow embedding of the documentation-comment transformer and symbol
cross-reference resolver of `src/mupdf-sys/build.rs` (the `bindgen` callbacks
`Callback::item_name`, `Callback::enum_variant_name` and
`Callback::process_comment`).

Strings are modelled as `List Char`.  The `HashMap<String, String>` field
`full_names` is modelled as an association list in which an insertion conses
the new binding in front and a lookup returns the most recent binding for a
key; this gives exactly the overwrite semantics of `HashMap::insert` as
observed through `HashMap::get`.
-/

set_option autoImplicit false

abbrev Str := List Char

/-- A single backtick, as a one-character string fragment. -/
def bq : Str := ("`").toList

/-- The backtick character. -/
def bqChar : Char := bq.headD ' '

/-- White space in the sense of Rust `char::is_whitespace` (the Unicode
White_Space property), used by `str::trim` and by the whitespace test in the
parameter-list rewrite of `process_comment`. -/
def isRustWhitespace (c : Char) : Bool :=
  c.val = 0x09 || c.val = 0x0A || c.val = 0x0B || c.val = 0x0C || c.val = 0x0D ||
  c.val = 0x20 || c.val = 0x85 || c.val = 0xA0 || c.val = 0x1680 ||
  (0x2000 ≤ c.val && c.val ≤ 0x200A) ||
  c.val = 0x2028 || c.val = 0x2029 || c.val = 0x202F || c.val = 0x205F || c.val = 0x3000

/-- Drop leading white space. -/
def trimLeft : Str → Str
  | [] => []
  | c :: rest => if isRustWhitespace c then trimLeft rest else c :: rest

/-- Rust `str::trim`: drop leading and trailing white space. -/
def trim (s : Str) : Str :=
  (trimLeft (trimLeft s).reverse).reverse

/-- Rust `str::split(sep)` for a one-character separator: always returns at
least one (possibly empty) piece. -/
def splitOnChar (sep : Char) : Str → List Str
  | [] => [[]]
  | c :: rest =>
    if c = sep then [] :: splitOnChar sep rest
    else
      match splitOnChar sep rest with
      | [] => [[c]]
      | h :: t => (c :: h) :: t

/-- Rust `str::contains(pat)` for a literal string pattern. -/
def containsSub : Str → Str → Bool
  | [], pat => pat.isEmpty
  | c :: rest, pat => List.isPrefixOf pat (c :: rest) || containsSub rest pat

/-- The `full_names` map: short name to fully qualified anchor. -/
abbrev Table := List (Str × Str)

/-- `HashMap::get` on the model: the most recent binding for a key wins. -/
def tblLookup : Table → Str → Option Str
  | [], _ => none
  | (k, v) :: rest, key => if k = key then some v else tblLookup rest key

/-- `HashMap::insert` on the model: the new binding shadows any earlier one. -/
def tblInsert (t : Table) (k v : Str) : Table := (k, v) :: t

/-- `Callback::item_name`: registers the declaration name mapped to itself and
returns no rename (`None`). -/
def item_name (t : Table) (original_item_name : Str) : Table × Option Str :=
  (tblInsert t original_item_name original_item_name, none)

/-- `Callback::enum_variant_name`: when the enclosing enum has a stable name,
registers `variant ↦ enum_variant`; when the enum name is absent or contains
the anonymous-enum marker `"unnamed at "` the call leaves the table unchanged.
Always returns no rename (`None`). -/
def enum_variant_name (t : Table) : Option Str → Str → Table × Option Str
  | none, _ => (t, none)
  | some e, original_variant_name =>
    if containsSub e (("unnamed at ").toList) then (t, none)
    else (tblInsert t original_variant_name (e ++ '_' :: original_variant_name), none)

/-- `line.strip_prefix("@param")`. -/
def stripPrefixParam : Str → Option Str
  | '@' :: 'p' :: 'a' :: 'r' :: 'a' :: 'm' :: rest => some rest
  | _ => none

/-- The escaping pass of `process_comment`:
`replace('[', "\\[")`, `replace(']', "\\]")`, `replace('<', "\\<")`,
`replace('>', "\\>")`, then `replace("NULL", "`NULL`")`.  The five
replacements touch pairwise disjoint characters (no replacement text contains
a character or substring replaced later), so the sequential `str::replace`
calls of the source equal this single left-to-right pass. -/
def escapeLine : Str → Str
  | [] => []
  | 'N' :: 'U' :: 'L' :: 'L' :: rest => ("`NULL`").toList ++ escapeLine rest
  | c :: rest =>
    if c = '[' then '\\' :: '[' :: escapeLine rest
    else if c = ']' then '\\' :: ']' :: escapeLine rest
    else if c = '<' then '\\' :: '<' :: escapeLine rest
    else if c = '>' then '\\' :: '>' :: escapeLine rest
    else c :: escapeLine rest

/-- A character matched by the class `[a-z_*]` of the case-insensitive
pattern `fz_[a-z_*]+`. -/
def isClassChar (c : Char) : Bool :=
  ('a' ≤ c && c ≤ 'z') || ('A' ≤ c && c ≤ 'Z') || c = '_' || c = '*'

/-- Maximal run of class characters (the greedy `[a-z_*]+`), together with the
remainder. -/
def takeClass : Str → Str × Str
  | [] => ([], [])
  | c :: rest =>
    if isClassChar c then
      match takeClass rest with
      | (run, out) => (c :: run, out)
    else ([], c :: rest)

/-- `name.strip_suffix("s")`. -/
def stripSuffixS (s : Str) : Option Str :=
  match s.reverse with
  | 's' :: rest => some rest.reverse
  | _ => none

/-- The replacement computed for one regex match: the closure passed to
`Regex::replace_all` in `process_comment`.  A match containing `*` becomes
inline code; a direct table hit becomes a link; a miss retries with one
trailing `s` stripped, rendering the `s` outside the link; otherwise the match
becomes inline code wrapped in square brackets with no target. -/
def tokenReplacement (tbl : Table) (name : Str) : Str :=
  if name.contains '*' then bq ++ name ++ bq
  else
    match tblLookup tbl name with
    | some full_name => ("[`").toList ++ name ++ ("`](").toList ++ full_name ++ (")").toList
    | none =>
      match stripSuffixS name with
      | some short_name =>
        match tblLookup tbl short_name with
        | some full_name =>
            ("[`").toList ++ short_name ++ ("`](").toList ++ full_name ++ (")s").toList
        | none => ("[`").toList ++ name ++ ("`]").toList
      | none => ("[`").toList ++ name ++ ("`]").toList

/-- `self.types.replace_all` on one line: leftmost, non-overlapping, greedy
matches of the case-insensitive pattern `fz_[a-z_*]+`; replacement text is not
rescanned.  The fuel is instantiated with the length of the input; every step
consumes at least one character per unit of fuel, so the fuel never runs out. -/
def substTokensAux (tbl : Table) : Nat → Str → Str
  | 0, s => s
  | _ + 1, [] => []
  | fuel + 1, c1 :: rest1 =>
    match rest1 with
    | c2 :: '_' :: rest2 =>
      if (c1 = 'f' || c1 = 'F') && (c2 = 'z' || c2 = 'Z') then
        match takeClass rest2 with
        | ([], _) => c1 :: substTokensAux tbl fuel rest1
        | (run, rest3) =>
            tokenReplacement tbl (c1 :: c2 :: '_' :: run) ++ substTokensAux tbl fuel rest3
      else c1 :: substTokensAux tbl fuel rest1
    | _ => c1 :: substTokensAux tbl fuel rest1

/-- The full identifier-substitution pass on one line. -/
def substTokens (tbl : Table) (s : Str) : Str := substTokensAux tbl s.length s

/-- `line.split_once(": ")`: split at the first occurrence of `": "`. -/
def splitOnceColonSpace : Str → Option (Str × Str)
  | [] => none
  | ':' :: ' ' :: rest => some ([], rest)
  | c :: rest =>
    match splitOnceColonSpace rest with
    | none => none
    | some (a, b) => some (c :: a, b)

/-- `first.split(", ")`: split on every occurrence of `", "`; always returns
at least one (possibly empty) piece. -/
def splitCommaSpace : Str → List Str
  | [] => [[]]
  | ',' :: ' ' :: rest => [] :: splitCommaSpace rest
  | c :: rest =>
    match splitCommaSpace rest with
    | [] => [[c]]
    | h :: t => (c :: h) :: t

/-- The argument-collecting loop of the parameter-list rewrite: wraps each
comma-separated token in backticks, joined by `", "`; at the first token that
contains white space or a backtick it clears everything and stops
(`new_line.clear(); break` in the source), reported here as `none`. -/
def buildArgs : List Str → Str → Option Str
  | [], acc => some acc
  | a :: rest, acc =>
    if a.any (fun c => isRustWhitespace c || c = bqChar) then none
    else
      buildArgs rest
        (if acc.isEmpty then bq ++ a ++ bq
         else acc ++ (", ").toList ++ bq ++ a ++ bq)

/-- The `split_once(": ")` parameter-list rewrite at the end of the per-line
processing of `process_comment`: if every comma-separated token before the
first `": "` is free of white space and backticks, each token is rendered as
inline code; otherwise the line is left unmodified. -/
def rewriteParamList (line : Str) : Str :=
  match splitOnceColonSpace line with
  | none => line
  | some (first, rest) =>
    match buildArgs (splitCommaSpace first) [] with
    | none => line
    | some new_line =>
      if new_line.isEmpty then line
      else new_line ++ ':' :: ' ' :: rest

/-- The per-line loop of `Callback::process_comment`.  `newlines` counts how
many `continue`d blank lines have been seen plus one for the previously
emitted content line (the source increments the counter after emitting);
`args` records whether the `# Arguments` heading has been emitted. -/
def processLines (tbl : Table) : List Str → Nat → Bool → Str → Str
  | [], _, _, output => output
  | l :: rest, newlines, args, output =>
    let line := trim l
    if line.isEmpty then processLines tbl rest (newlines + 1) args output
    else
      let ap :=
        match stripPrefixParam line with
        | some pline => (true, pline)
        | none => (false, line)
      let argument := ap.1
      let line1 := ap.2
      let sep : Str :=
        if argument then ('\n') :: []
        else
          match newlines with
          | 0 => []
          | 1 => ("<br>").toList
          | _ => ("\n\n").toList
      let head : Str :=
        if argument then
          (if args then ("* ").toList else ("# Arguments\n* ").toList)
        else []
      let line2 := escapeLine line1
      let line3 := substTokens tbl line2
      let line4 := rewriteParamList line3
      processLines tbl rest 1 (args || argument) (output ++ sep ++ head ++ line4)

/-- `Callback::process_comment`.  The source method takes `&self` and only
ever takes an immutable borrow of `full_names`, so the embedding takes the
table by value and returns only the output; the `Option` mirrors the Rust
return type, and the function always returns `some`. -/
def process_comment (tbl : Table) (comment : Str) : Option Str :=
  some (processLines tbl (splitOnChar '\n' comment) 0 false [])

/-- Number of occurrences of a character in a string. -/
def countChar (c : Char) : Str → Nat
  | [] => 0
  | d :: rest => (if d = c then 1 else 0) + countChar c rest

/-!
## Claims

Each claim of the specification is settled below against the embedding.
-/

/-- Claim C6: `process_comment` is total: for every table and every comment it
returns `some` output, and the output for the empty comment is empty.  The
source method only ever takes an immutable borrow of the table, which the
embedding mirrors by taking the table by value and returning only the output
string, so no invocation can mutate the table. -/
theorem C6_total :
    (∀ (tbl : Table) (s : Str), ∃ out, process_comment tbl s = some out) ∧
    (∀ tbl : Table, process_comment tbl [] = some []) :=
  ⟨fun tbl s => ⟨processLines tbl (splitOnChar '\n' s) 0 false [], rfl⟩, fun _ => rfl⟩

/-- Claim C1, counterexample: with exactly one blank line between `a` and `b`
the transformer emits a paragraph break, not the soft line break the claim
predicts — the output is `"a\n\nb"` and contains no `<br>`. -/
theorem C1_counterexample :
    process_comment [] (("a\n\nb").toList) = some (("a\n\nb").toList) ∧
    containsSub (("a\n\nb").toList) (("<br>").toList) = false := by decide

/-- Claim C1, amended: adjacent non-blank lines (zero blank lines between
them) are joined with the soft break `<br>`; one blank line already produces a
paragraph break, exactly as two or more blank lines do. -/
theorem C1_separators :
    process_comment [] (("a\nb").toList) = some (("a<br>b").toList) ∧
    process_comment [] (("a\n\nb").toList) = some (("a\n\nb").toList) ∧
    process_comment [] (("a\n\n\nb").toList) = some (("a\n\nb").toList) := by decide

/-- Claim C2, counterexample: the input `"[ fz_a"` contains `[` exactly once,
yet already one application of the transformer inserts further `[` characters
through identifier rendering, and after a second application the output
contains `[` three times — so re-running the transformer does not leave every
such bracket character appearing singly. -/
theorem C2_counterexample :
    countChar '[' (("[ fz_a").toList) = 1 ∧
    process_comment [] (("[ fz_a").toList) = some (("\\[ [`fz_a`]").toList) ∧
    process_comment [] (("\\[ [`fz_a`]").toList) =
      some (("\\\\[ \\[`[`fz_a`]`\\]").toList) ∧
    countChar '[' (("\\\\[ \\[`[`fz_a`]`\\]").toList) = 3 := by decide

/-- Claim C2, amended: the escaping pass itself never duplicates a bracket:
each of `[`, `]`, `<`, `>` is rewritten to a backslash followed by that same
single character.  Hence on a single-line input that contains a bracket
character once and no `fz_`-pattern token, a second application of the
transformer only accumulates backslashes and the bracket character still
appears exactly once, as the two concrete double transforms show. -/
theorem C2_escape_single :
    (∀ rest : Str, escapeLine ('[' :: rest) = '\\' :: '[' :: escapeLine rest) ∧
    (∀ rest : Str, escapeLine (']' :: rest) = '\\' :: ']' :: escapeLine rest) ∧
    (∀ rest : Str, escapeLine ('<' :: rest) = '\\' :: '<' :: escapeLine rest) ∧
    (∀ rest : Str, escapeLine ('>' :: rest) = '\\' :: '>' :: escapeLine rest) ∧
    (process_comment [] (("a[b").toList) = some (("a\\[b").toList) ∧
     process_comment [] (("a\\[b").toList) = some (("a\\\\[b").toList) ∧
     countChar '[' (("a\\\\[b").toList) = 1) ∧
    (process_comment [] (("a<b").toList) = some (("a\\<b").toList) ∧
     process_comment [] (("a\\<b").toList) = some (("a\\\\<b").toList) ∧
     countChar '<' (("a\\\\<b").toList) = 1) :=
  ⟨fun _ => rfl, fun _ => rfl, fun _ => rfl, fun _ => rfl, by decide, by decide⟩

/-- Claim C3, counterexample: with an empty table the unknown token `fz_zzz`
is rendered as `[`fz_zzz`]` — inline code wrapped in square brackets, a
reference-link shorthand — not as the plain unbracketed inline code the claim
states. -/
theorem C3_counterexample :
    process_comment [] (("see fz_zzz").toList) = some (("see [`fz_zzz`]").toList) ∧
    ("see [`fz_zzz`]").toList ≠ ("see `fz_zzz`").toList := by decide

/-- Claim C3, amended: a matched token without `*` whose name resolves neither
by direct lookup nor via the single-trailing-`s` fallback is rendered as
inline code wrapped in square brackets with no link target, `[`name`]`. -/
theorem C3_unknown_token :
    ∀ (tbl : Table) (name : Str),
      name.contains '*' = false →
      tblLookup tbl name = none →
      (match stripSuffixS name with
       | some short_name => tblLookup tbl short_name = none
       | none => True) →
      tokenReplacement tbl name = ("[`").toList ++ name ++ ("`]").toList := by
  intro tbl name h1 h2 h3
  simp only [tokenReplacement, h1, h2]
  cases hs : stripSuffixS name with
  | none => simp [hs]
  | some short_name =>
    rw [hs] at h3
    simp [hs, h3]

/-- Witness for `C3_unknown_token`: the token `fz_qs` with a table holding
only `fz_ctx` stays unlinked (neither `fz_qs` nor `fz_q` resolves). -/
theorem C3_witness :
    tokenReplacement [((("fz_ctx").toList), (("fz_ctx").toList))] (("fz_qs").toList) =
      ("[`").toList ++ ("fz_qs").toList ++ ("`]").toList :=
  C3_unknown_token [((("fz_ctx").toList), (("fz_ctx").toList))] (("fz_qs").toList)
    (by decide) (by decide)
    (by
      change tblLookup [((("fz_ctx").toList), (("fz_ctx").toList))] (("fz_q").toList) = none
      decide)

/-- Claim C4, counterexample: registering `FZ_A` through `item_name` (anchor
`FZ_A`) and then through `enum_variant_name` under enum `fz_e` makes a
subsequent lookup return the later anchor `fz_e_FZ_A`: the first associated
anchor does not stay authoritative. -/
theorem C4_counterexample :
    tblLookup (enum_variant_name (item_name [] (("FZ_A").toList)).1
        (some (("fz_e").toList)) (("FZ_A").toList)).1 (("FZ_A").toList) =
      some (("fz_e_FZ_A").toList) ∧
    some (("fz_e_FZ_A").toList) ≠ some (("FZ_A").toList) := by decide

/-- Claim C4, amended: the table has last-write-wins semantics: a lookup right
after a registration returns that registration's anchor; `item_name` always
registers a name mapped to itself; and re-registering a short name with the
anchor it already resolves to leaves every lookup unchanged. -/
theorem C4_lookup_insert :
    (∀ (t : Table) (k v : Str), tblLookup (tblInsert t k v) k = some v) ∧
    (∀ (t : Table) (k : Str), tblLookup (item_name t k).1 k = some k) ∧
    (∀ (t : Table) (k v k' : Str), tblLookup t k = some v →
      tblLookup (tblInsert t k v) k' = tblLookup t k') := by
  refine ⟨fun t k v => ?_, fun t k => ?_, fun t k v k' h => ?_⟩
  · simp [tblInsert, tblLookup]
  · simp [item_name, tblInsert, tblLookup]
  · by_cases hk : k = k'
    · subst hk
      simp [tblInsert, tblLookup, h]
    · simp [tblInsert, tblLookup, hk]

/-- Witness for `C4_lookup_insert`: re-inserting the identity binding for
`fz_p` changes no lookup. -/
theorem C4_witness :
    tblLookup (tblInsert [((("fz_p").toList), (("fz_p").toList))]
        (("fz_p").toList) (("fz_p").toList)) (("x").toList) =
      tblLookup [((("fz_p").toList), (("fz_p").toList))] (("x").toList) :=
  C4_lookup_insert.2.2 [((("fz_p").toList), (("fz_p").toList))]
    (("fz_p").toList) (("fz_p").toList) (("x").toList) (by decide)

/-- Claim C5, counterexample: for the single line `@param x the value` the
output is `"\n# Arguments\n*  x the value"`: it begins with the forced line
break, not with the Arguments heading. -/
theorem C5_counterexample :
    process_comment [] (("@param x the value").toList) =
      some (("\n# Arguments\n*  x the value").toList) ∧
    List.isPrefixOf (("# Arguments").toList)
      (("\n# Arguments\n*  x the value").toList) = false := by decide

/-- Claim C5, amended: a leading `@param` line produces a single line break,
then the Arguments heading, then the list item; a second `@param` line in the
same comment does not repeat the heading; and an argument line is always
preceded by exactly one line break no matter how many blank lines precede it
in the input. -/
theorem C5_arguments :
    process_comment [] (("@param x the value").toList) =
      some (("\n# Arguments\n*  x the value").toList) ∧
    process_comment [] (("@param x a\n@param y b").toList) =
      some (("\n# Arguments\n*  x a\n*  y b").toList) ∧
    process_comment [] (("intro\n\n\n\n@param x v").toList) =
      some (("intro\n# Arguments\n*  x v").toList) := by decide

/-- Claim C7: with only `fz_point ↦ fz_point` registered, a mention of
`fz_points` is linked to the singular anchor with the trailing `s` rendered
outside the link markup; and the fallback strips exactly one trailing `s`,
so `fz_pointss` stays unlinked. -/
theorem C7_plural_fallback :
    process_comment [((("fz_point").toList), (("fz_point").toList))]
        (("array of fz_points").toList) =
      some (("array of [`fz_point`](fz_point)s").toList) ∧
    process_comment [((("fz_point").toList), (("fz_point").toList))]
        (("fz_pointss").toList) =
      some (("[`fz_pointss`]").toList) := by decide

/-- Claim C8: a matched token containing `*` is rendered as plain inline code
and never as a link, whatever the table holds: shown for the whole transform
of `"pass a fz_context*"` under an arbitrary table, and for the replacement
function on every token containing `*`. -/
theorem C8_pointer_mentions :
    (∀ tbl : Table, process_comment tbl (("pass a fz_context*").toList) =
      some (("pass a `fz_context*`").toList)) ∧
    (∀ (tbl : Table) (name : Str), name.contains '*' = true →
      tokenReplacement tbl name = bq ++ name ++ bq) := by
  refine ⟨fun _ => rfl, fun tbl name h => ?_⟩
  unfold tokenReplacement
  rw [if_pos h]

/-- Witness for `C8_pointer_mentions`: the token `fz_a*` is rendered as inline
code even when it is itself a key of the table. -/
theorem C8_witness :
    tokenReplacement [((("fz_a*").toList), (("fz_x").toList))] (("fz_a*").toList) =
      bq ++ ("fz_a*").toList ++ bq :=
  C8_pointer_mentions.2 [((("fz_a*").toList), (("fz_x").toList))] (("fz_a*").toList)
    (by decide)

/-- Claim C9, counterexample: the marker tested by the code is
`"unnamed at "` with a trailing space.  The enclosing name `"unnamed at"`
contains the claim's quoted marker `"unnamed at"`, yet the registration is not
a no-op: the variant `A` becomes resolvable with anchor `unnamed at_A`. -/
theorem C9_counterexample :
    containsSub (("unnamed at").toList) (("unnamed at").toList) = true ∧
    tblLookup (enum_variant_name [] (some (("unnamed at").toList)) (("A").toList)).1
      (("A").toList) = some (("unnamed at_A").toList) := by decide

/-- Claim C9, amended: with the anonymous-enum marker read as the code's
`"unnamed at "` (trailing space included), the claim holds: an absent
enclosing name, or one containing the marker, leaves the table unchanged and
the variant stays unresolvable, as the clang-style concrete name shows. -/
theorem C9_anonymous_enum :
    (∀ (t : Table) (v : Str), enum_variant_name t none v = (t, none)) ∧
    (∀ (t : Table) (e v : Str), containsSub e (("unnamed at ").toList) = true →
      enum_variant_name t (some e) v = (t, none)) ∧
    tblLookup (enum_variant_name [] (some (("(unnamed at /f.h:3:9)").toList))
      (("A").toList)).1 (("A").toList) = none := by
  refine ⟨fun t v => rfl, fun t e v h => ?_, by decide⟩
  simp only [enum_variant_name]
  rw [if_pos h]

/-- Witness for `C9_anonymous_enum`: a registration under the enclosing name
`"e (unnamed at x)"` is a no-op. -/
theorem C9_witness :
    enum_variant_name [] (some (("e (unnamed at x)").toList)) (("V").toList) =
      ([], none) :=
  C9_anonymous_enum.2.1 [] (("e (unnamed at x)").toList) (("V").toList) (by decide)

/-- Claim C10: a line whose text before the first `": "` is empty still
triggers the parameter-list rewrite: the empty prefix is accepted as one valid
token (it contains no white space and no backtick) and is rendered as an empty
inline-code span, so a line beginning with `": "` is rewritten to two adjacent
backticks followed by `": "` and the remainder of the line. -/
theorem C10_empty_prefix :
    (∀ rest : Str,
      rewriteParamList (':' :: ' ' :: rest) = bq ++ bq ++ ':' :: ' ' :: rest) ∧
    process_comment [] ((": the description").toList) =
      some (("``: the description").toList) :=
  ⟨fun _ => rfl, by decide⟩
